import Mathlib

/-!
# Verification of the GameData world-asset registry

Shallow embedding of the in-memory world-asset registry declared in
`rwengine/src/engine/GameData.hpp`: the typed model catalog and its lookup
(`findModelInfo`, implemented inline in the header), the load ledger
(`loadedFiles` / `markIfUnloaded`), the zone point lookup (`findZoneAt`),
the water sampling grids (`getWaterIndexAt` / `getWaveHeightAt`), lazy
texture-slot loading (`loadTXD` / `findSlotTexture`) and the gated
whole-level `load`.  The header is declaration-only except for
`findModelInfo`; the bodies of the remaining operations are modelled from
the specification, as noted on each definition.

Machine floats are modelled as rationals; C++ fixed arrays as lists; raw
pointers as `Option` results.
-/

/-- Discriminant tag of a model-info record.  The spec describes "a closed
set of variants (simple, vehicle, pedestrian, weapon, clump, etc.)"; this is
the runtime tag returned by `BaseModelInfo::type()` and compared against
`T::kType` in `findModelInfo`. -/
inductive ModelDataType
  | SimpleInfo
  | ClumpInfo
  | WeaponInfo
  | VehicleInfo
  | PedInfo
  deriving DecidableEq

/-- A model-info record: its name together with the discriminant tag that
`type()` reports.  Variant payloads are irrelevant to the lookup logic. -/
structure BaseModelInfo where
  name : String
  type : ModelDataType
  deriving DecidableEq

/-- A `ModelID` is a numeric model identifier (`uint16_t`-ish; width is
irrelevant to the lookup logic). -/
abbrev ModelID : Type := Nat

/-- Association-list lookup: the value stored at key `k`, if any.  This is
the `find` of the `std::map` / `std::unordered_map` members of `GameData`:
at most one entry per key, and lookup returns that entry. -/
def assocFind {κ α : Type} [DecidableEq κ] : List (κ × α) → κ → Option α
  | [], _ => none
  | kv :: rest, k => if kv.1 = k then some kv.2 else assocFind rest k

/-- Association-list insert with `std::unordered_map` key-uniqueness:
storing at `k` overwrites any prior entry at `k` and leaves every other key
untouched (last-writer-wins, as the spec requires of `insert(id, record)`). -/
def assocInsert {κ α : Type} [DecidableEq κ] (m : List (κ × α)) (k : κ) (v : α) :
    List (κ × α) :=
  (k, v) :: m.filter (fun kv => decide (kv.1 ≠ k))

/-- The lookup `GameData::findModelInfo<T>` (GameData.hpp, lines 230-237), embedded
with the requested variant `T` represented by its tag `t = T::kType`:

    auto f = modelinfo.find(id);
    if (f != modelinfo.end() && f->second->type() == T::kType) {
        return static_cast<T*>(f->second.get());
    }
    return nullptr;

The returned pointer is modelled as `Option BaseModelInfo`; `none` is the
`nullptr` result. -/
def findModelInfo (t : ModelDataType) (modelinfo : List (ModelID × BaseModelInfo))
    (id : ModelID) : Option BaseModelInfo :=
  match assocFind modelinfo id with
  | some r => if r.type = t then some r else none
  | none => none

/-- Modelled from the spec: the LoadLedger "normalizes the path" before
comparison, so that "differently-cased or differently-rooted path strings"
denote the same ledger entry.  Normalization lower-cases the path and strips
the configured data-root prefix (`GameData::datpath`) when present.  The
body of the normalization is not in the header. -/
def normalizePath (root p : String) : String :=
  let lp := p.data.map Char.toLower
  let lr := root.data.map Char.toLower
  if lr.isPrefixOf lp then String.mk (lp.drop lr.length) else String.mk lp

/-- A zone record (`ZoneData`): name plus an axis-aligned planar extent.
Modelled from the spec: "a planar polygon or axis-aligned bound (min/max
corner)"; `ZoneData`'s definition is not in the header. -/
structure ZoneData where
  name : String
  xMin : ℚ
  yMin : ℚ
  xMax : ℚ
  yMax : ℚ
  deriving DecidableEq

/-- A texture archive: a slot's ordered collection of named texture images.
Texture payloads are modelled as opaque numeric handles. -/
abbrev TextureArchive : Type := List (String × Nat)

/-- A water rectangle (`GameData::WaterArea`, GameData.hpp lines 323-335):
a height and a rectangular extent. -/
structure WaterArea where
  height : ℚ
  xLeft : ℚ
  yBottom : ℚ
  xRight : ℚ
  yTop : ℚ
  deriving DecidableEq

/-- The registry state: the catalog/store/ledger members of `GameData`
(GameData.hpp lines 46-48, 206, 218-226, 268, 340-355) that the verified
operations read and write.  Fixed C arrays (`waterHeights[48]`,
`visibleWater[64*64]`, `realWater[128*128]`) are lists; `decodeCount` is
the spec's decode-call counter, incremented exactly when a load operation
performs decode work. -/
structure GameState where
  datpath : String
  currenttextureslot : String
  loadedFiles : List String
  modelinfo : List (ModelID × BaseModelInfo)
  gamezones : List ZoneData
  mapzones : List ZoneData
  textureSlots : List (String × TextureArchive)
  waterBlocks : List WaterArea
  waterHeights : List ℚ
  visibleWater : List Nat
  realWater : List Nat
  decodeCount : Nat
  deriving DecidableEq

/-- Modelled from the spec: `markIfUnloaded(path) -> bool` — "normalizes the
path, returns true and records it as loaded if not previously seen, returns
false otherwise."  The ledger is the `loadedFiles` member declared at
GameData.hpp line 206; the check's body is not in the header. -/
def markIfUnloaded (st : GameState) (path : String) : Bool × GameState :=
  let n := normalizePath st.datpath path
  if n ∈ st.loadedFiles then (false, st)
  else (true, { st with loadedFiles := n :: st.loadedFiles })

/-- Modelled from the spec: "Every load entry point in the registry must
consult this [the ledger] before doing decode/insert work", and "No side
effect occurs when the ledger reports already-loaded."  `work` is the
decode-and-insert step of one named load operation; the decode counter is
bumped exactly when decode work happens. -/
def guardedLoad (path : String) (work : GameState → GameState) (st : GameState) :
    GameState :=
  let r := markIfUnloaded st path
  if r.1 then work { r.2 with decodeCount := r.2.decodeCount + 1 } else r.2

/-- Modelled from the spec: `GameData::loadIDE` (declared at GameData.hpp
line 80) feeds the decoded model-definition records into the model catalog
through the ledger guard.  `records` is the output of the external IDE
decoder; insertion is the catalog's overwriting `insert(id, record)`. -/
def loadIDE (records : List (ModelID × BaseModelInfo)) (path : String)
    (st : GameState) : GameState :=
  guardedLoad path
    (fun s => { s with
      modelinfo := records.foldl (fun m r => assocInsert m r.1 r.2) s.modelinfo }) st

/-- Modelled from the spec: `GameData::loadZone` (declared at GameData.hpp
line 97) appends the decoded zone records, in file order, to the gameplay
zone list, through the ledger guard. -/
def loadZone (zones : List ZoneData) (path : String) (st : GameState) : GameState :=
  guardedLoad path (fun s => { s with gamezones := s.gamezones ++ zones }) st

/-- Modelled from the spec: `GameData::loadWater` (declared at GameData.hpp
line 113) appends the decoded water rectangles, "loaded in a fixed sequence
and exposed in that order", through the ledger guard. -/
def loadWater (areas : List WaterArea) (path : String) (st : GameState) : GameState :=
  guardedLoad path (fun s => { s with waterBlocks := s.waterBlocks ++ areas }) st

/-- The decoded contents of a `waterpro.dat` file: the 48-entry height
table and the two cell-index grids (GameData.hpp lines 345-355). -/
structure WaterProRecord where
  heights : List ℚ
  visible : List Nat
  real : List Nat
  deriving DecidableEq

/-- The reserved cell value meaning "no water" (the spec's sentinel "index
(0-255, with a reserved sentinel)" for the water grids). -/
def NO_WATER_INDEX : Nat := 128

/-- Well-formedness of a decoded waterpro record, per the spec's data
model: every grid cell stores either the no-water sentinel or "an index ...
into a small table of absolute water-plane heights (<= 48 entries)", and the
height table has its full 48 entries. -/
def WaterProWF (rec : WaterProRecord) : Prop :=
  rec.heights.length = 48 ∧
  (∀ v ∈ rec.visible, v ≠ NO_WATER_INDEX → v < 48) ∧
  (∀ v ∈ rec.real, v ≠ NO_WATER_INDEX → v < 48)

instance (rec : WaterProRecord) : Decidable (WaterProWF rec) := by
  unfold WaterProWF; infer_instance

/-- Modelled from the spec: `GameData::loadWaterpro` (declared at
GameData.hpp line 112) installs the decoded height table and both cell
grids, through the ledger guard. -/
def loadWaterpro (rec : WaterProRecord) (path : String) (st : GameState) :
    GameState :=
  guardedLoad path
    (fun s => { s with
      waterHeights := rec.heights,
      visibleWater := rec.visible,
      realWater := rec.real }) st

/-- Case-fold a string (slot names and paths are case-insensitive). -/
def lowerStr (s : String) : String := String.mk (s.data.map Char.toLower)

/-- The texture slot named by a `.txd` path: the basename without the
4-character extension, case-folded (slot names are case-insensitive per the
spec's TextureArchiveHandle identity). -/
def txdSlotName (name : String) : String :=
  lowerStr (String.mk (name.data.take (name.data.length - 4)))

/-- Modelled from the spec: `GameData::loadTXD` (GameData.hpp line 126,
"Loads the txd slot if it is not already loaded and sets the current TXD
slot") / the spec's `ensureLoaded(slotName)`: "if the slot is already
present, no-op; otherwise locate the archive ..., decode it ..., and insert
the resulting handle.  Sets 'current slot' to this name."  `decoded` is the
output of the external archive decoder; decoding counts only when it
actually happens. -/
def loadTXD (decoded : TextureArchive) (name : String) (st : GameState) : GameState :=
  let slot := txdSlotName name
  match assocFind st.textureSlots slot with
  | some _ => { st with currenttextureslot := slot }
  | none =>
    { st with
      textureSlots := (slot, decoded) :: st.textureSlots,
      currenttextureslot := slot,
      decodeCount := st.decodeCount + 1 }

/-- Modelled from the spec: `GameData::findSlotTexture` (GameData.hpp lines
198-199) / the spec's `findTexture(slotName, textureName)`: "looks inside
one slot (or, if slotName is empty, the current slot) for a texture by
name; returns empty if the slot was never loaded or the texture is absent
within it." -/
def findSlotTexture (st : GameState) (slot texture : String) : Option Nat :=
  let s := if slot = "" then st.currenttextureslot else lowerStr slot
  match assocFind st.textureSlots s with
  | none => none
  | some arch => assocFind arch texture

/-- Zone rectangle area, the measure of specificity for nested-zone
tie-breaking ("preferring the most specific (smallest-area) zone"). -/
def zoneArea (z : ZoneData) : ℚ := (z.xMax - z.xMin) * (z.yMax - z.yMin)

/-- Point-in-extent test of one zone record against a world position. -/
def zoneContains (z : ZoneData) (x y : ℚ) : Bool :=
  decide (z.xMin ≤ x) && decide (x ≤ z.xMax) &&
  decide (z.yMin ≤ y) && decide (y ≤ z.yMax)

/-- Modelled from the spec: `GameData::findZoneAt` (declared at GameData.hpp
line 224) / `findZoneAtPoint(pos)`: "tests the point against zone extents
... in load order and returns the first (or innermost, if zones nest) match;
ties are broken by preferring the most specific (smallest-area) zone
containing the point"; equal-area ties keep the first match in load order.
Returns `none` when no zone contains the point. -/
def findZoneAt : List ZoneData → ℚ → ℚ → Option ZoneData
  | [], _, _ => none
  | z :: rest, x, y =>
    match findZoneAt rest x y with
    | none => if zoneContains z x y then some z else none
    | some b =>
      if zoneContains z x y && decide (zoneArea z ≤ zoneArea b) then some z else some b

/-- World extent covered by the water grids.  The spec leaves the numeric
extent abstract ("clamping to world bounds and scaling into the grid's
resolution"); the grids span `[-WATER_WORLD_SIZE/2, WATER_WORLD_SIZE/2]`. -/
def WATER_WORLD_SIZE : ℚ := 4096

/-- Fine ("real") water grid resolution, 128 x 128 cells (GameData.hpp
line 355). -/
def WATER_HQ_DATA_SIZE : Nat := 128

/-- Coarse ("visible") water grid resolution, 64 x 64 cells (GameData.hpp
line 350). -/
def WATER_LQ_DATA_SIZE : Nat := 64

/-- Integer clamp of `v` into `[lo, hi]`. -/
def clampInt (lo hi v : Int) : Int :=
  if v < lo then lo else if hi < v then hi else v

/-- Modelled from the spec: one axis of the world-to-cell conversion —
scale the coordinate into the grid's resolution and clamp to the grid's
bounds, so positions outside the world "clamp to the nearest edge cell
rather than failing". -/
def waterCellCoord (gridSize : Nat) (c : ℚ) : Nat :=
  (clampInt 0 ((gridSize : Int) - 1)
    (Int.floor ((c + WATER_WORLD_SIZE / 2) / (WATER_WORLD_SIZE / (gridSize : ℚ))))).toNat

/-- The flattened fine-grid cell number of a world position. -/
def waterDataIndex (x y : ℚ) : Nat :=
  waterCellCoord WATER_HQ_DATA_SIZE x * WATER_HQ_DATA_SIZE +
    waterCellCoord WATER_HQ_DATA_SIZE y

/-- Modelled from the spec: `GameData::getWaterIndexAt` (declared at
GameData.hpp line 357): the height-table index stored in the fine grid cell
under the (clamped) world position. -/
def getWaterIndexAt (st : GameState) (x y : ℚ) : Nat :=
  st.realWater.getD (waterDataIndex x y) NO_WATER_INDEX

/-- Modelled from the spec: `heightAt(worldPos)` — "looks up the cell's
height-table index; if the sentinel is present, returns empty ('no water
here'); otherwise returns the stored absolute height." -/
def heightAt (st : GameState) (x y : ℚ) : Option ℚ :=
  let i := getWaterIndexAt st x y
  if i = NO_WATER_INDEX then none else some (st.waterHeights.getD i 0)

/-- Unit triangle wave: period 1, range `[-1, 1]`, continuous (4-Lipschitz).
The continuous periodic carrier of the wave offset (the machine sinusoid is
modelled by this rational-valued wave of the same period/bound structure). -/
def triWave (u : ℚ) : ℚ := 1 - 4 * |Int.fract u - 1 / 2|

/-- Spatial frequency of the wave pattern. -/
def WATER_SCALE : ℚ := 1 / 50

/-- Wave amplitude bound. -/
def WATER_HEIGHT : ℚ := 1 / 2

/-- Modelled from the spec: the "deterministic, continuous wave offset
(periodic function of position and elapsed time, bounded amplitude)" layered
on the base height. -/
def waveOffset (x y t : ℚ) : ℚ := WATER_HEIGHT * triWave (t + (x + y) * WATER_SCALE)

/-- Modelled from the spec: `GameData::getWaveHeightAt` (declared at
GameData.hpp line 358) / `waveHeightAt(worldPos, time)`: the base height
plus the wave offset; "returns empty under the same condition as
`heightAt`". -/
def getWaveHeightAt (st : GameState) (x y t : ℚ) : Option ℚ :=
  match heightAt st x y with
  | none => none
  | some h => some (h + waveOffset x y t)

/-- Modelled from the spec: the directory-layout description the validity
check inspects — the top-level entry names of the configured data root. -/
structure GameDirectory where
  entries : List String
  deriving DecidableEq

/-- Modelled from the spec: `GameData::isValidGameDirectory` (GameData.hpp
lines 363-366): "the configured data directory does not contain the
expected top-level structure" makes the whole load invalid; the expected
layout is the `data` and `models` subtrees. -/
def isValidGameDirectory (d : GameDirectory) : Bool :=
  decide ("data" ∈ d.entries) && decide ("models" ∈ d.entries)

/-- The decoded payloads the fixed load sequence feeds into the registry
(each produced by an external FormatDecoder). -/
structure LevelContent where
  ide : List (ModelID × BaseModelInfo)
  zones : List ZoneData
  water : List WaterArea
  waterpro : WaterProRecord
  deriving DecidableEq

/-- Modelled from the spec: `GameData::load` (declared at GameData.hpp line
115): "A final 'is this a valid data root' check gates the entire load: if
the expected top-level layout is absent, the whole operation fails fast
before any partial state is created."  On a valid root it runs the fixed
load sequence over the decoded level content. -/
def load (d : GameDirectory) (c : LevelContent) (st : GameState) :
    Bool × GameState :=
  if isValidGameDirectory d then
    (true,
      loadWaterpro c.waterpro "data/waterpro.dat"
        (loadWater c.water "data/water.dat"
          (loadZone c.zones "data/gta3.zon"
            (loadIDE c.ide "data/gta3.ide" st))))
  else (false, st)

/-- The registry state as constructed, before any load operation: empty
catalogs and ledger, water grids holding the no-water sentinel everywhere,
height table zeroed. -/
def initState : GameState :=
  { datpath := "/gta3/"
    currenttextureslot := "generic"
    loadedFiles := []
    modelinfo := []
    gamezones := []
    mapzones := []
    textureSlots := []
    waterBlocks := []
    waterHeights := List.replicate 48 0
    visibleWater := List.replicate (WATER_LQ_DATA_SIZE * WATER_LQ_DATA_SIZE) NO_WATER_INDEX
    realWater := List.replicate (WATER_HQ_DATA_SIZE * WATER_HQ_DATA_SIZE) NO_WATER_INDEX
    decodeCount := 0 }

/-- One invocation of a named load operation, with decoded inputs supplied
by the external decoders; waterpro input is a well-formed decoded record
(the decoder yields indices into the height table, per the spec's data
model). -/
inductive LoadStep : GameState → GameState → Prop
  | ide (records : List (ModelID × BaseModelInfo)) (path : String) (st : GameState) :
      LoadStep st (loadIDE records path st)
  | zone (zones : List ZoneData) (path : String) (st : GameState) :
      LoadStep st (loadZone zones path st)
  | water (areas : List WaterArea) (path : String) (st : GameState) :
      LoadStep st (loadWater areas path st)
  | waterpro (rec : WaterProRecord) (path : String) (st : GameState)
      (hwf : WaterProWF rec) : LoadStep st (loadWaterpro rec path st)
  | txd (decoded : TextureArchive) (name : String) (st : GameState) :
      LoadStep st (loadTXD decoded name st)

/-- States reachable from the fresh registry by load operations. -/
def Reachable (st : GameState) : Prop :=
  Relation.ReflTransGen LoadStep initState st

/-- The water-grid safety invariant: the height table has its 48 entries
and every non-sentinel cell of either grid indexes it in bounds. -/
def WaterInv (st : GameState) : Prop :=
  st.waterHeights.length = 48 ∧
  (∀ v ∈ st.visibleWater, v ≠ NO_WATER_INDEX → v < 48) ∧
  (∀ v ∈ st.realWater, v ≠ NO_WATER_INDEX → v < 48)

/-- A sample model record used in concrete instantiations. -/
def sampleModel : BaseModelInfo := ⟨"landstal", ModelDataType.VehicleInfo⟩

/-- A sample decode-and-insert worker (the catalog step of an IDE load). -/
def sampleIDEWork (s : GameState) : GameState :=
  { s with modelinfo := assocInsert s.modelinfo 90 sampleModel }

/-- The coarse map zone of the spec's containment example. -/
def zoneA : ZoneData := ⟨"Zone A", 0, 0, 100, 100⟩

/-- The nested gameplay zone of the spec's containment example. -/
def zoneB : ZoneData := ⟨"Zone B", 10, 10, 20, 20⟩

/-- A small well-formed decoded waterpro record. -/
def sampleWaterRec : WaterProRecord := ⟨List.replicate 48 0, [3], [3, 128]⟩

/-- A loaded state whose fine water grid holds height-table index 3 in its
cell 0, with height 7 stored at table entry 3. -/
def sampleWaterState : GameState :=
  { initState with realWater := [3], waterHeights := [0, 0, 0, 7] }

theorem assocFind_filter_ne {κ α : Type} [DecidableEq κ]
    (m : List (κ × α)) (k k' : κ) (h : k' ≠ k) :
    assocFind (m.filter (fun kv => decide (kv.1 ≠ k'))) k = assocFind m k := by
  induction m with
  | nil => rfl
  | cons kv rest ih =>
    by_cases h1 : kv.1 = k'
    · have h2 : kv.1 ≠ k := by rw [h1]; exact h
      rw [List.filter_cons, if_neg (by simp [h1]), ih]
      simp only [assocFind]
      rw [if_neg h2]
    · rw [List.filter_cons, if_pos (by simp [h1])]
      simp only [assocFind]
      rw [ih]

theorem assocFind_insert_ne {κ α : Type} [DecidableEq κ]
    (m : List (κ × α)) (k k' : κ) (v : α) (h : k' ≠ k) :
    assocFind (assocInsert m k' v) k = assocFind m k := by
  unfold assocInsert
  rw [assocFind, if_neg h]
  exact assocFind_filter_ne m k k' h

/-- C1: `findModelInfo<T>(id)` returns the stored record exactly when an
entry exists at `id` and its discriminant equals `T::kType`; a missing id
and a variant mismatch both yield the absent (`nullptr`) result.  The
embedding is a total function, so the lookup never throws, and a mismatched
variant is never returned (no unchecked cast is observable). -/
theorem findModelInfo_characterization
    (modelinfo : List (ModelID × BaseModelInfo)) (t : ModelDataType) (id : ModelID) :
    (∀ r, findModelInfo t modelinfo id = some r ↔
        (assocFind modelinfo id = some r ∧ r.type = t)) ∧
    (assocFind modelinfo id = none → findModelInfo t modelinfo id = none) ∧
    (∀ r, assocFind modelinfo id = some r → r.type ≠ t →
        findModelInfo t modelinfo id = none) := by
  refine ⟨fun r => ?_, fun hn => ?_, fun r hr hne => ?_⟩
  · rcases hf : assocFind modelinfo id with _ | r0
    · simp [findModelInfo, hf]
    · simp only [findModelInfo, hf]
      by_cases ht : r0.type = t
      · rw [if_pos ht]
        constructor
        · intro h
          have h1 : r0 = r := Option.some.inj h
          subst h1
          exact ⟨rfl, ht⟩
        · intro h
          have h1 : r0 = r := Option.some.inj h.1
          rw [h1]
      · rw [if_neg ht]
        constructor
        · intro h; cases h
        · intro h
          have h1 : r0 = r := Option.some.inj h.1
          exact absurd (h1 ▸ h.2) ht
  · simp only [findModelInfo, hn]
  · simp only [findModelInfo, hr, if_neg hne]

/-- C1 witness: at a concrete one-entry catalog the characterization holds,
and a pedestrian-variant lookup of a vehicle record is absent. -/
theorem findModelInfo_characterization_witness :
    findModelInfo ModelDataType.PedInfo [((42 : ModelID), sampleModel)] 42 = none :=
  (findModelInfo_characterization [((42 : ModelID), sampleModel)]
      ModelDataType.PedInfo 42).2.2 sampleModel (by decide) (by decide)

/-- C9: the typed lookup depends only on the entry stored at the requested
id — it is unchanged under any equality of that entry across catalogs, and
in particular unchanged by inserting an unrelated model at another id. -/
theorem findModelInfo_unrelated_inserts (t : ModelDataType) (id : ModelID) :
    (∀ m m' : List (ModelID × BaseModelInfo),
        assocFind m id = assocFind m' id →
        findModelInfo t m id = findModelInfo t m' id) ∧
    (∀ (m : List (ModelID × BaseModelInfo)) (id' : ModelID) (v : BaseModelInfo),
        id' ≠ id →
        findModelInfo t (assocInsert m id' v) id = findModelInfo t m id) := by
  constructor
  · intro m m' h
    unfold findModelInfo
    rw [h]
  · intro m id' v h
    unfold findModelInfo
    rw [assocFind_insert_ne m id id' v h]

/-- C9 witness: inserting an unrelated pedestrian record at id 7 leaves the
vehicle lookup at id 42 unchanged. -/
theorem findModelInfo_unrelated_inserts_witness :
    findModelInfo ModelDataType.VehicleInfo
        (assocInsert [((42 : ModelID), sampleModel)] 7
          ⟨"ped", ModelDataType.PedInfo⟩) 42 =
      findModelInfo ModelDataType.VehicleInfo [((42 : ModelID), sampleModel)] 42 :=
  (findModelInfo_unrelated_inserts ModelDataType.VehicleInfo 42).2
    [((42 : ModelID), sampleModel)] 7 ⟨"ped", ModelDataType.PedInfo⟩ (by decide)

theorem guardedLoad_of_mem (path : String) (work : GameState → GameState)
    (st : GameState) (hmem : normalizePath st.datpath path ∈ st.loadedFiles) :
    guardedLoad path work st = st := by
  simp [guardedLoad, markIfUnloaded, hmem]

theorem guardedLoad_of_not_mem (path : String) (work : GameState → GameState)
    (st : GameState) (hmem : normalizePath st.datpath path ∉ st.loadedFiles) :
    guardedLoad path work st =
      work { st with
        loadedFiles := normalizePath st.datpath path :: st.loadedFiles,
        decodeCount := st.decodeCount + 1 } := by
  simp [guardedLoad, markIfUnloaded, hmem]

theorem markIfUnloaded_after_guardedLoad (path₁ path₂ : String)
    (work : GameState → GameState) (st : GameState)
    (hled : ∀ s, (work s).loadedFiles = s.loadedFiles)
    (hroot : ∀ s, (work s).datpath = s.datpath)
    (hnorm : normalizePath st.datpath path₂ = normalizePath st.datpath path₁) :
    markIfUnloaded (guardedLoad path₁ work st) path₂ =
      (false, guardedLoad path₁ work st) := by
  by_cases hmem : normalizePath st.datpath path₁ ∈ st.loadedFiles
  · rw [guardedLoad_of_mem path₁ work st hmem]
    simp [markIfUnloaded, hnorm, hmem]
  · rw [guardedLoad_of_not_mem path₁ work st hmem]
    unfold markIfUnloaded
    rw [hroot, hled]
    simp [hnorm]

theorem guardedLoad_eq_of_mark_false (path : String) (work : GameState → GameState)
    (st : GameState) (h : markIfUnloaded st path = (false, st)) :
    guardedLoad path work st = st := by
  unfold guardedLoad
  rw [h]
  rfl

theorem guardedLoad_after_guardedLoad (path₁ path₂ : String)
    (work : GameState → GameState) (st : GameState)
    (hled : ∀ s, (work s).loadedFiles = s.loadedFiles)
    (hroot : ∀ s, (work s).datpath = s.datpath)
    (hnorm : normalizePath st.datpath path₂ = normalizePath st.datpath path₁) :
    guardedLoad path₂ work (guardedLoad path₁ work st) = guardedLoad path₁ work st :=
  guardedLoad_eq_of_mark_false path₂ work (guardedLoad path₁ work st)
    (markIfUnloaded_after_guardedLoad path₁ path₂ work st hled hroot hnorm)

/-- C2: a ledger-guarded named load operation is idempotent — the second
invocation of the same operation on the same path leaves the registry state
identical, its ledger check `markIfUnloaded` reports already-loaded
(`false`), and it performs no decode work (the decode counter is
unchanged).  `work` is the operation's decode-and-insert step, which
touches only catalog state, never the ledger or the data root. -/
theorem guardedLoad_idempotent (path : String) (work : GameState → GameState)
    (st : GameState)
    (hled : ∀ s, (work s).loadedFiles = s.loadedFiles)
    (hroot : ∀ s, (work s).datpath = s.datpath) :
    guardedLoad path work (guardedLoad path work st) = guardedLoad path work st ∧
    (markIfUnloaded (guardedLoad path work st) path).1 = false ∧
    (guardedLoad path work (guardedLoad path work st)).decodeCount =
      (guardedLoad path work st).decodeCount := by
  have h1 := guardedLoad_after_guardedLoad path path work st hled hroot rfl
  have h2 := markIfUnloaded_after_guardedLoad path path work st hled hroot rfl
  exact ⟨h1, by rw [h2], by rw [h1]⟩

/-- C2 witness: a concrete IDE-style load on the fresh registry, invoked
twice, equals one invocation and decodes nothing the second time. -/
theorem guardedLoad_idempotent_witness :
    guardedLoad "data/gta3.ide" sampleIDEWork
        (guardedLoad "data/gta3.ide" sampleIDEWork initState) =
      guardedLoad "data/gta3.ide" sampleIDEWork initState ∧
    (markIfUnloaded (guardedLoad "data/gta3.ide" sampleIDEWork initState)
        "data/gta3.ide").1 = false ∧
    (guardedLoad "data/gta3.ide" sampleIDEWork
        (guardedLoad "data/gta3.ide" sampleIDEWork initState)).decodeCount =
      (guardedLoad "data/gta3.ide" sampleIDEWork initState).decodeCount :=
  guardedLoad_idempotent "data/gta3.ide" sampleIDEWork initState
    (fun _ => rfl) (fun _ => rfl)

/-- C8: the ledger normalizes paths before comparison — once a guarded load
has been processed under one spelling, re-invoking it under any spelling
with the same normalization (differing case, or carrying the data-root
prefix) is a no-op: the state is unchanged and the ledger check reports
already-loaded. -/
theorem guardedLoad_normalized_spelling (path₁ path₂ : String)
    (work : GameState → GameState) (st : GameState)
    (hled : ∀ s, (work s).loadedFiles = s.loadedFiles)
    (hroot : ∀ s, (work s).datpath = s.datpath)
    (hnorm : normalizePath st.datpath path₂ = normalizePath st.datpath path₁) :
    guardedLoad path₂ work (guardedLoad path₁ work st) = guardedLoad path₁ work st ∧
    (markIfUnloaded (guardedLoad path₁ work st) path₂).1 = false :=
  ⟨guardedLoad_after_guardedLoad path₁ path₂ work st hled hroot hnorm,
   by rw [markIfUnloaded_after_guardedLoad path₁ path₂ work st hled hroot hnorm]⟩

/-- C8 witness: loading `data/MAPS/GTA3.IMG` and then re-invoking the load
as `/gta3/Data/maps/gta3.img` — the same resource spelled with different
case and rooted at the configured data root — is a no-op on the fresh
registry. -/
theorem guardedLoad_normalized_spelling_witness :
    guardedLoad "/gta3/Data/maps/gta3.img" sampleIDEWork
        (guardedLoad "data/MAPS/GTA3.IMG" sampleIDEWork initState) =
      guardedLoad "data/MAPS/GTA3.IMG" sampleIDEWork initState ∧
    (markIfUnloaded (guardedLoad "data/MAPS/GTA3.IMG" sampleIDEWork initState)
        "/gta3/Data/maps/gta3.img").1 = false :=
  guardedLoad_normalized_spelling "data/MAPS/GTA3.IMG" "/gta3/Data/maps/gta3.img"
    sampleIDEWork initState (fun _ => rfl) (fun _ => rfl) (by decide)

theorem findZoneAt_spec_aux (x y : ℚ) (zones : List ZoneData) :
    (findZoneAt zones x y = none ↔ ∀ z ∈ zones, zoneContains z x y = false) ∧
    (∀ z, findZoneAt zones x y = some z →
      z ∈ zones ∧ zoneContains z x y = true ∧
      ∀ z' ∈ zones, zoneContains z' x y = true → zoneArea z ≤ zoneArea z') := by
  induction zones with
  | nil => exact ⟨by simp [findZoneAt], by intro z h; cases h⟩
  | cons z0 rest ih =>
    rcases hr : findZoneAt rest x y with _ | b
    · have hall : ∀ z ∈ rest, zoneContains z x y = false := (ih.1).mp hr
      by_cases hc : zoneContains z0 x y = true
      · have hres : findZoneAt (z0 :: rest) x y = some z0 := by
          simp [findZoneAt, hr, hc]
        refine ⟨?_, ?_⟩
        · rw [hres]
          constructor
          · intro h; cases h
          · intro h
            have h0 := h z0 (List.mem_cons_self z0 rest)
            rw [hc] at h0; cases h0
        · intro z hz
          rw [hres] at hz
          have h0 : z0 = z := Option.some.inj hz
          subst h0
          refine ⟨List.mem_cons_self z0 rest, hc, ?_⟩
          intro z' hz' hc'
          rcases List.mem_cons.mp hz' with h | h
          · rw [h]
          · rw [hall z' h] at hc'; cases hc'
      · have hcf : zoneContains z0 x y = false := by
          cases hcv : zoneContains z0 x y
          · rfl
          · exact absurd hcv hc
        have hres : findZoneAt (z0 :: rest) x y = none := by
          simp [findZoneAt, hr, hcf]
        refine ⟨?_, ?_⟩
        · rw [hres]
          constructor
          · intro _ z hz
            rcases List.mem_cons.mp hz with h | h
            · rw [h]; exact hcf
            · exact hall z h
          · intro _; rfl
        · intro z hz
          rw [hres] at hz; cases hz
    · have hb := ih.2 b hr
      by_cases hc : (zoneContains z0 x y && decide (zoneArea z0 ≤ zoneArea b)) = true
      · have hres : findZoneAt (z0 :: rest) x y = some z0 := by
          simp only [findZoneAt, hr]
          rw [if_pos hc]
        have hc0 : zoneContains z0 x y = true := ((Bool.and_eq_true _ _).mp hc).1
        have hle : zoneArea z0 ≤ zoneArea b :=
          of_decide_eq_true ((Bool.and_eq_true _ _).mp hc).2
        refine ⟨?_, ?_⟩
        · rw [hres]
          constructor
          · intro h; cases h
          · intro h
            have h0 := h z0 (List.mem_cons_self z0 rest)
            rw [hc0] at h0; cases h0
        · intro z hz
          rw [hres] at hz
          have h0 : z0 = z := Option.some.inj hz
          subst h0
          refine ⟨List.mem_cons_self z0 rest, hc0, ?_⟩
          intro z' hz' hc'
          rcases List.mem_cons.mp hz' with h | h
          · rw [h]
          · exact le_trans hle (hb.2.2 z' h hc')
      · have hres : findZoneAt (z0 :: rest) x y = some b := by
          simp only [findZoneAt, hr]
          rw [if_neg hc]
        refine ⟨?_, ?_⟩
        · rw [hres]
          constructor
          · intro h; cases h
          · intro h
            have h0 := h b (List.mem_cons_of_mem z0 hb.1)
            rw [hb.2.1] at h0; cases h0
        · intro z hz
          rw [hres] at hz
          have h0 : b = z := Option.some.inj hz
          subst h0
          refine ⟨List.mem_cons_of_mem z0 hb.1, hb.2.1, ?_⟩
          intro z' hz' hc'
          rcases List.mem_cons.mp hz' with h | h
          · subst h
            have hnle : ¬ zoneArea z' ≤ zoneArea b := by
              intro hab
              exact hc (by rw [hc']; simp [hab])
            exact le_of_not_le hnle
          · exact hb.2.2 z' h hc'

/-- C3: point-in-zone lookup returns the most specific (smallest-area)
containing zone and returns absent exactly when no zone contains the point;
in particular, with "Zone A" covering [0,0]-[100,100] and a nested
"Zone B" covering [10,10]-[20,20], the lookup at (15,15) returns "Zone B"
and the lookup at (200,200) returns absent. -/
theorem findZoneAt_most_specific :
    (∀ (zones : List ZoneData) (x y : ℚ),
      (findZoneAt zones x y = none ↔ ∀ z ∈ zones, zoneContains z x y = false) ∧
      (∀ z, findZoneAt zones x y = some z →
        z ∈ zones ∧ zoneContains z x y = true ∧
        ∀ z' ∈ zones, zoneContains z' x y = true → zoneArea z ≤ zoneArea z')) ∧
    findZoneAt [zoneA, zoneB] 15 15 = some zoneB ∧
    findZoneAt [zoneA, zoneB] 200 200 = none :=
  ⟨fun zones x y => findZoneAt_spec_aux x y zones,
   by norm_num [findZoneAt, zoneContains, zoneArea, zoneA, zoneB],
   by norm_num [findZoneAt, zoneContains, zoneArea, zoneA, zoneB]⟩

/-- C3 witness: the general most-specific property applied at the concrete
nested pair and point (15,15): the returned "Zone B" contains the point and
has minimal area among the containing zones. -/
theorem findZoneAt_most_specific_witness :
    zoneB ∈ [zoneA, zoneB] ∧ zoneContains zoneB 15 15 = true ∧
    ∀ z' ∈ [zoneA, zoneB], zoneContains z' 15 15 = true →
      zoneArea zoneB ≤ zoneArea z' :=
  (findZoneAt_most_specific.1 [zoneA, zoneB] 15 15).2 zoneB
    (by norm_num [findZoneAt, zoneContains, zoneArea, zoneA, zoneB])

theorem clampInt_nonneg_le (hi v : Int) (hhi : 0 ≤ hi) :
    0 ≤ clampInt 0 hi v ∧ clampInt 0 hi v ≤ hi := by
  unfold clampInt
  omega

theorem clampInt_of_hi_le (hi v : Int) (hhi : 0 ≤ hi) (h : hi ≤ v) :
    clampInt 0 hi v = hi := by
  unfold clampInt
  omega

theorem clampInt_of_le_lo (hi v : Int) (hhi : 0 ≤ hi) (h : v ≤ 0) :
    clampInt 0 hi v = 0 := by
  unfold clampInt
  omega

theorem waterCellCoord_lt (gridSize : Nat) (hg : 0 < gridSize) (c : ℚ) :
    waterCellCoord gridSize c < gridSize := by
  unfold waterCellCoord
  have h := clampInt_nonneg_le ((gridSize : Int) - 1)
    (Int.floor ((c + WATER_WORLD_SIZE / 2) / (WATER_WORLD_SIZE / (gridSize : ℚ))))
    (by omega)
  omega

theorem waterCellCoord_high (x : ℚ) (hx : WATER_WORLD_SIZE / 2 ≤ x) :
    waterCellCoord WATER_HQ_DATA_SIZE x = WATER_HQ_DATA_SIZE - 1 := by
  have hx' : (2048 : ℚ) ≤ x := by
    norm_num [WATER_WORLD_SIZE] at hx
    exact hx
  have hfl : (128 : Int) ≤
      ⌊(x + WATER_WORLD_SIZE / 2) / (WATER_WORLD_SIZE / ((WATER_HQ_DATA_SIZE : Nat) : ℚ))⌋ := by
    rw [Int.le_floor]
    have e1 : WATER_WORLD_SIZE / ((WATER_HQ_DATA_SIZE : Nat) : ℚ) = 32 := by
      norm_num [WATER_WORLD_SIZE, WATER_HQ_DATA_SIZE]
    rw [e1, le_div_iff₀ (by norm_num : (0:ℚ) < 32)]
    push_cast
    norm_num [WATER_WORLD_SIZE]
    linarith
  unfold waterCellCoord
  rw [clampInt_of_hi_le _ _ (by norm_num [WATER_HQ_DATA_SIZE])
    (by norm_num [WATER_HQ_DATA_SIZE] at hfl ⊢; omega)]
  norm_num [WATER_HQ_DATA_SIZE]
  rfl

theorem waterCellCoord_low (x : ℚ) (hx : x ≤ -(WATER_WORLD_SIZE / 2)) :
    waterCellCoord WATER_HQ_DATA_SIZE x = 0 := by
  have hx' : x ≤ (-2048 : ℚ) := by
    norm_num [WATER_WORLD_SIZE] at hx
    exact hx
  have hfl :
      ⌊(x + WATER_WORLD_SIZE / 2) / (WATER_WORLD_SIZE / ((WATER_HQ_DATA_SIZE : Nat) : ℚ))⌋ ≤ 0 := by
    have e1 : WATER_WORLD_SIZE / ((WATER_HQ_DATA_SIZE : Nat) : ℚ) = 32 := by
      norm_num [WATER_WORLD_SIZE, WATER_HQ_DATA_SIZE]
    have h2 : (x + WATER_WORLD_SIZE / 2) / (WATER_WORLD_SIZE / ((WATER_HQ_DATA_SIZE : Nat) : ℚ)) ≤ 0 := by
      rw [e1, div_nonpos_iff]
      right
      constructor
      · norm_num [WATER_WORLD_SIZE]; linarith
      · norm_num
    have h3 := Int.floor_le_floor h2
    rwa [Int.floor_zero] at h3
  unfold waterCellCoord
  rw [clampInt_of_le_lo _ _ (by norm_num [WATER_HQ_DATA_SIZE]) hfl]
  rfl

/-- C4: the water-grid index lookup clamps every position — including
positions outside the world bounds — to an in-range edge cell (the
flattened cell number is always within the 128x128 grid, the far edges map
to cell coordinate 127 and 0), and it is a pure function of position: on
any two states with the same loaded grids the stored index and the base
height are identical. -/
theorem getWaterIndexAt_clamps (st st' : GameState) (x y : ℚ)
    (hr : st'.realWater = st.realWater) (hh : st'.waterHeights = st.waterHeights) :
    waterDataIndex x y < WATER_HQ_DATA_SIZE * WATER_HQ_DATA_SIZE ∧
    (WATER_WORLD_SIZE / 2 ≤ x →
      waterCellCoord WATER_HQ_DATA_SIZE x = WATER_HQ_DATA_SIZE - 1) ∧
    (x ≤ -(WATER_WORLD_SIZE / 2) → waterCellCoord WATER_HQ_DATA_SIZE x = 0) ∧
    getWaterIndexAt st' x y = getWaterIndexAt st x y ∧
    heightAt st' x y = heightAt st x y := by
  refine ⟨?_, waterCellCoord_high x, waterCellCoord_low x, ?_, ?_⟩
  · have h1 := waterCellCoord_lt WATER_HQ_DATA_SIZE (by norm_num [WATER_HQ_DATA_SIZE]) x
    have h2 := waterCellCoord_lt WATER_HQ_DATA_SIZE (by norm_num [WATER_HQ_DATA_SIZE]) y
    unfold waterDataIndex
    norm_num [WATER_HQ_DATA_SIZE] at h1 h2 ⊢
    omega
  · unfold getWaterIndexAt
    rw [hr]
  · unfold heightAt getWaterIndexAt
    rw [hr, hh]

/-- C4 witness: a position well beyond the east world edge clamps to the
last cell column, at a concrete state. -/
theorem getWaterIndexAt_clamps_witness :
    waterCellCoord WATER_HQ_DATA_SIZE 3000 = WATER_HQ_DATA_SIZE - 1 :=
  (getWaterIndexAt_clamps initState initState 3000 0 rfl rfl).2.1
    (by norm_num [WATER_WORLD_SIZE])

theorem triWave_le_one (u : ℚ) : triWave u ≤ 1 := by
  unfold triWave
  have h := abs_nonneg (Int.fract u - 1 / 2)
  linarith

theorem neg_one_le_triWave (u : ℚ) : -1 ≤ triWave u := by
  unfold triWave
  have h1 := Int.fract_nonneg u
  have h2 := Int.fract_lt_one u
  have h3 : |Int.fract u - 1 / 2| ≤ 1 / 2 := by
    rw [abs_le]
    constructor <;> linarith
  linarith

theorem abs_triWave_le_one (u : ℚ) : |triWave u| ≤ 1 :=
  abs_le.mpr ⟨neg_one_le_triWave u, triWave_le_one u⟩

theorem triWave_add_one (u : ℚ) : triWave (u + 1) = triWave u := by
  unfold triWave
  rw [Int.fract_add_one]

theorem triWave_lipschitz_of_le (u v : ℚ) (huv : u ≤ v) :
    |triWave u - triWave v| ≤ 4 * (v - u) := by
  by_cases hd : 1 / 2 ≤ v - u
  · have h1 := abs_triWave_le_one u
    have h2 := abs_triWave_le_one v
    have h3 : |triWave u - triWave v| ≤ |triWave u| + |triWave v| :=
      abs_sub (triWave u) (triWave v)
    linarith
  · push_neg at hd
    have hfol : ⌊u⌋ ≤ ⌊v⌋ := Int.floor_le_floor huv
    have hfup : ⌊v⌋ ≤ ⌊u⌋ + 1 := by
      have h3 : v ≤ u + 1 := by linarith
      have h4 := Int.floor_le_floor h3
      rwa [Int.floor_add_one] at h4
    rcases (by omega : ⌊v⌋ = ⌊u⌋ ∨ ⌊v⌋ = ⌊u⌋ + 1) with hf | hf
    · have hfr : Int.fract v - Int.fract u = v - u := by
        unfold Int.fract
        rw [hf]
        ring
      unfold triWave
      have key : abs (|Int.fract v - 1 / 2| - |Int.fract u - 1 / 2|) ≤
          |Int.fract v - Int.fract u| := by
        calc abs (|Int.fract v - 1 / 2| - |Int.fract u - 1 / 2|)
            ≤ |(Int.fract v - 1 / 2) - (Int.fract u - 1 / 2)| :=
              abs_abs_sub_abs_le_abs_sub _ _
          _ = |Int.fract v - Int.fract u| := by
              congr 1
              ring
      rw [hfr] at key
      have hvu : |v - u| = v - u := abs_of_nonneg (by linarith)
      rw [hvu] at key
      have e : (1 - 4 * |Int.fract u - 1 / 2|) - (1 - 4 * |Int.fract v - 1 / 2|) =
          4 * (|Int.fract v - 1 / 2| - |Int.fract u - 1 / 2|) := by ring
      rw [e, abs_mul, abs_of_nonneg (by norm_num : (0:ℚ) ≤ 4)]
      linarith
    · have ha0 := Int.fract_nonneg u
      have ha1 := Int.fract_lt_one u
      have hb0 := Int.fract_nonneg v
      have hb1 := Int.fract_lt_one v
      have hb_eq : Int.fract v = Int.fract u + (v - u) - 1 := by
        unfold Int.fract
        rw [hf]
        push_cast
        ring
      have hage : 1 - (v - u) ≤ Int.fract u := by
        rw [hb_eq] at hb0
        linarith
      have hahalf : 1 / 2 ≤ Int.fract u := by linarith
      have hbhalf : Int.fract v ≤ 1 / 2 := by
        rw [hb_eq]
        linarith
      unfold triWave
      rw [abs_of_nonneg (by linarith : (0:ℚ) ≤ Int.fract u - 1 / 2),
          abs_of_nonpos (by linarith : Int.fract v - 1 / 2 ≤ 0)]
      rw [abs_le]
      refine ⟨?_, ?_⟩
      · rw [hb_eq]
        linarith
      · rw [hb_eq]
        linarith

theorem triWave_lipschitz (u v : ℚ) : |triWave u - triWave v| ≤ 4 * |u - v| := by
  rcases le_total u v with h | h
  · have h1 := triWave_lipschitz_of_le u v h
    have h2 : |u - v| = v - u := by
      rw [abs_of_nonpos (by linarith : u - v ≤ 0)]
      ring
    rw [h2]
    exact h1
  · have h1 := triWave_lipschitz_of_le v u h
    have h2 : |u - v| = u - v := abs_of_nonneg (by linarith)
    rw [h2, abs_sub_comm]
    exact h1

/-- C5: the wave-height query returns absent exactly when the base height
query does; otherwise it returns the base height plus a deterministic wave
offset that is bounded in amplitude by `WATER_HEIGHT`, periodic in elapsed
time (period 1) and in each position coordinate (period `1 / WATER_SCALE`),
and Lipschitz-continuous in both elapsed time and position. -/
theorem getWaveHeightAt_spec (st : GameState) (x y t : ℚ) :
    (getWaveHeightAt st x y t = none ↔ heightAt st x y = none) ∧
    (∀ h, heightAt st x y = some h →
      getWaveHeightAt st x y t = some (h + waveOffset x y t)) ∧
    |waveOffset x y t| ≤ WATER_HEIGHT ∧
    waveOffset x y (t + 1) = waveOffset x y t ∧
    (∀ t', |waveOffset x y t - waveOffset x y t'| ≤ 4 * WATER_HEIGHT * |t - t'|) ∧
    waveOffset (x + 1 / WATER_SCALE) y t = waveOffset x y t ∧
    waveOffset x (y + 1 / WATER_SCALE) t = waveOffset x y t ∧
    (∀ x' y', |waveOffset x y t - waveOffset x' y' t| ≤
      4 * WATER_HEIGHT * WATER_SCALE * (|x - x'| + |y - y'|)) := by
  refine ⟨?_, ?_, ?_, ?_, ?_, ?_, ?_, ?_⟩
  · unfold getWaveHeightAt
    rcases hh : heightAt st x y with _ | h0 <;> simp
  · intro h hh
    unfold getWaveHeightAt
    rw [hh]
  · unfold waveOffset
    rw [abs_mul]
    have h1 := abs_triWave_le_one (t + (x + y) * WATER_SCALE)
    have h3 : (0:ℚ) ≤ WATER_HEIGHT := by norm_num [WATER_HEIGHT]
    rw [abs_of_nonneg h3]
    exact mul_le_of_le_one_right h3 h1
  · unfold waveOffset
    rw [show t + 1 + (x + y) * WATER_SCALE = t + (x + y) * WATER_SCALE + 1 by ring,
        triWave_add_one]
  · intro t'
    unfold waveOffset
    have e : WATER_HEIGHT * triWave (t + (x + y) * WATER_SCALE) -
        WATER_HEIGHT * triWave (t' + (x + y) * WATER_SCALE) =
        WATER_HEIGHT * (triWave (t + (x + y) * WATER_SCALE) -
          triWave (t' + (x + y) * WATER_SCALE)) := by ring
    rw [e, abs_mul]
    have h4 : (0:ℚ) ≤ WATER_HEIGHT := by norm_num [WATER_HEIGHT]
    rw [abs_of_nonneg h4]
    have h3 := triWave_lipschitz (t + (x + y) * WATER_SCALE) (t' + (x + y) * WATER_SCALE)
    have e2 : (t + (x + y) * WATER_SCALE) - (t' + (x + y) * WATER_SCALE) = t - t' := by
      ring
    rw [e2] at h3
    have h5 := mul_le_mul_of_nonneg_left h3 h4
    linarith
  · unfold waveOffset
    rw [show t + (x + 1 / WATER_SCALE + y) * WATER_SCALE =
        t + (x + y) * WATER_SCALE + 1 by simp only [WATER_SCALE]; ring]
    rw [triWave_add_one]
  · unfold waveOffset
    rw [show t + (x + (y + 1 / WATER_SCALE)) * WATER_SCALE =
        t + (x + y) * WATER_SCALE + 1 by simp only [WATER_SCALE]; ring]
    rw [triWave_add_one]
  · intro x' y'
    unfold waveOffset
    have e : WATER_HEIGHT * triWave (t + (x + y) * WATER_SCALE) -
        WATER_HEIGHT * triWave (t + (x' + y') * WATER_SCALE) =
        WATER_HEIGHT * (triWave (t + (x + y) * WATER_SCALE) -
          triWave (t + (x' + y') * WATER_SCALE)) := by ring
    rw [e, abs_mul]
    have h4 : (0:ℚ) ≤ WATER_HEIGHT := by norm_num [WATER_HEIGHT]
    rw [abs_of_nonneg h4]
    have h3 := triWave_lipschitz (t + (x + y) * WATER_SCALE)
      (t + (x' + y') * WATER_SCALE)
    have e2 : (t + (x + y) * WATER_SCALE) - (t + (x' + y') * WATER_SCALE) =
        ((x - x') + (y - y')) * WATER_SCALE := by ring
    rw [e2, abs_mul,
      abs_of_nonneg (by norm_num [WATER_SCALE] : (0:ℚ) ≤ WATER_SCALE)] at h3
    have htri : |(x - x') + (y - y')| ≤ |x - x'| + |y - y'| := abs_add _ _
    norm_num [WATER_HEIGHT, WATER_SCALE] at h3 ⊢
    linarith

/-- C5 witness: at a concrete loaded state holding water of height 7 under
the world's south-west corner cell, the wave query returns the base height
plus the bounded offset. -/
theorem getWaveHeightAt_spec_witness :
    getWaveHeightAt sampleWaterState (-2048) (-2048) 0 =
      some (7 + waveOffset (-2048) (-2048) 0) :=
  (getWaveHeightAt_spec sampleWaterState (-2048) (-2048) 0).2.1 7
    (by norm_num [heightAt, getWaterIndexAt, waterDataIndex, waterCellCoord,
      clampInt, WATER_WORLD_SIZE, WATER_HQ_DATA_SIZE, NO_WATER_INDEX,
      sampleWaterState, initState, List.getD])

/-- C6: texture lookup is absent when the slot was never loaded or the
texture is absent within the loaded slot; a first `loadTXD` of a fresh slot
installs the decoded archive (so the texture may then be found), and a
second `loadTXD` of the same slot is a no-op — in particular it triggers no
additional decode. -/
theorem findSlotTexture_lazy (st : GameState) (slot texture name : String)
    (decoded : TextureArchive) :
    (slot ≠ "" → assocFind st.textureSlots (lowerStr slot) = none →
      findSlotTexture st slot texture = none) ∧
    (∀ arch, slot ≠ "" → assocFind st.textureSlots (lowerStr slot) = some arch →
      assocFind arch texture = none → findSlotTexture st slot texture = none) ∧
    (assocFind st.textureSlots (txdSlotName name) = none →
      assocFind (loadTXD decoded name st).textureSlots (txdSlotName name) =
        some decoded) ∧
    loadTXD decoded name (loadTXD decoded name st) = loadTXD decoded name st ∧
    (loadTXD decoded name (loadTXD decoded name st)).decodeCount =
      (loadTXD decoded name st).decodeCount := by
  have hid : loadTXD decoded name (loadTXD decoded name st) = loadTXD decoded name st := by
    rcases hf : assocFind st.textureSlots (txdSlotName name) with _ | arch
    · simp [loadTXD, hf, assocFind]
    · simp [loadTXD, hf]
  refine ⟨?_, ?_, ?_, hid, by rw [hid]⟩
  · intro h1 h2
    simp only [findSlotTexture]
    rw [if_neg h1, h2]
  · intro arch h1 h2 h3
    simp only [findSlotTexture]
    rw [if_neg h1, h2]
    exact h3
  · intro h2
    simp only [loadTXD]
    rw [h2]
    simp [assocFind]

/-- C6 witness: on the fresh registry the "vehicles" slot is unloaded, so
the texture query is absent; loading `vehicles.txd` installs the decoded
archive under that slot. -/
theorem findSlotTexture_lazy_witness :
    findSlotTexture initState "vehicles" "bumper1" = none ∧
    assocFind (loadTXD [("bumper1", 1)] "vehicles.txd" initState).textureSlots
      (txdSlotName "vehicles.txd") = some [("bumper1", 1)] :=
  ⟨(findSlotTexture_lazy initState "vehicles" "bumper1" "vehicles.txd"
      [("bumper1", 1)]).1 (by decide) rfl,
   (findSlotTexture_lazy initState "vehicles" "bumper1" "vehicles.txd"
      [("bumper1", 1)]).2.2.1 rfl⟩

/-- C7: when the configured data root lacks the expected top-level layout,
the whole-level load fails fast — it reports failure and leaves the
registry state exactly as it was: no catalog, store, ledger, zone or
water-grid mutation happens. -/
theorem load_fails_fast (d : GameDirectory) (c : LevelContent) (st : GameState)
    (h : isValidGameDirectory d = false) :
    load d c st = (false, st) := by
  unfold load
  rw [h]
  rfl

/-- C7 witness: a data root containing only a stray file is invalid, and
the load on the fresh registry fails without mutating it. -/
theorem load_fails_fast_witness :
    load ⟨["readme"]⟩ ⟨[], [], [], ⟨[], [], []⟩⟩ initState = (false, initState) :=
  load_fails_fast ⟨["readme"]⟩ ⟨[], [], [], ⟨[], [], []⟩⟩ initState (by decide)

theorem getD_mem_or_eq {α : Type} (l : List α) (i : Nat) (d : α) :
    l.getD i d ∈ l ∨ l.getD i d = d := by
  induction l generalizing i with
  | nil => right; rfl
  | cons a as ih =>
    cases i with
    | zero => left; simp [List.getD]
    | succ n =>
      have hstep : (a :: as).getD (n + 1) d = as.getD n d := by
        simp [List.getD]
      rw [hstep]
      rcases ih n with h | h
      · exact Or.inl (List.mem_cons_of_mem a h)
      · exact Or.inr h

theorem guardedLoad_water_fields (path : String) (work : GameState → GameState)
    (st : GameState)
    (hw : ∀ s, (work s).waterHeights = s.waterHeights ∧
      (work s).visibleWater = s.visibleWater ∧ (work s).realWater = s.realWater) :
    (guardedLoad path work st).waterHeights = st.waterHeights ∧
    (guardedLoad path work st).visibleWater = st.visibleWater ∧
    (guardedLoad path work st).realWater = st.realWater := by
  by_cases hmem : normalizePath st.datpath path ∈ st.loadedFiles
  · rw [guardedLoad_of_mem path work st hmem]
    exact ⟨rfl, rfl, rfl⟩
  · rw [guardedLoad_of_not_mem path work st hmem]
    exact ⟨(hw _).1, (hw _).2.1, (hw _).2.2⟩

theorem waterInv_guardedLoad (path : String) (work : GameState → GameState)
    (st : GameState)
    (hw : ∀ s, (work s).waterHeights = s.waterHeights ∧
      (work s).visibleWater = s.visibleWater ∧ (work s).realWater = s.realWater)
    (h : WaterInv st) : WaterInv (guardedLoad path work st) := by
  have hp := guardedLoad_water_fields path work st hw
  unfold WaterInv at h ⊢
  rw [hp.1, hp.2.1, hp.2.2]
  exact h

theorem waterInv_loadWaterpro (rec : WaterProRecord) (path : String)
    (st : GameState) (hwf : WaterProWF rec) (h : WaterInv st) :
    WaterInv (loadWaterpro rec path st) := by
  unfold loadWaterpro
  by_cases hmem : normalizePath st.datpath path ∈ st.loadedFiles
  · rw [guardedLoad_of_mem _ _ _ hmem]
    exact h
  · rw [guardedLoad_of_not_mem _ _ _ hmem]
    exact ⟨hwf.1, hwf.2.1, hwf.2.2⟩

theorem waterInv_loadTXD (decoded : TextureArchive) (name : String)
    (st : GameState) (h : WaterInv st) : WaterInv (loadTXD decoded name st) := by
  simp only [loadTXD]
  rcases hf : assocFind st.textureSlots (txdSlotName name) with _ | arch <;>
    exact h

theorem waterInv_initState : WaterInv initState := by
  refine ⟨by simp [initState], ?_, ?_⟩ <;>
  · intro v hv hne
    have h := List.eq_of_mem_replicate hv
    exact absurd h hne

/-- C10: in every registry state reachable by the load operations, every
non-sentinel cell of the visible and real water grids is a valid index
strictly below 48, and hence every base-height lookup taken through
`getWaterIndexAt` reads the 48-entry height table in bounds. -/
theorem reachable_water_in_bounds (st : GameState) (h : Reachable st) :
    (∀ v ∈ st.visibleWater, v ≠ NO_WATER_INDEX → v < 48) ∧
    (∀ v ∈ st.realWater, v ≠ NO_WATER_INDEX → v < 48) ∧
    (∀ x y : ℚ, getWaterIndexAt st x y ≠ NO_WATER_INDEX →
      getWaterIndexAt st x y < st.waterHeights.length) := by
  have hinv : WaterInv st := by
    induction h with
    | refl => exact waterInv_initState
    | tail hsteps hstep ih =>
      cases hstep with
      | ide records path st' =>
        exact waterInv_guardedLoad _ _ _ (fun s => ⟨rfl, rfl, rfl⟩) ih
      | zone zones path st' =>
        exact waterInv_guardedLoad _ _ _ (fun s => ⟨rfl, rfl, rfl⟩) ih
      | water areas path st' =>
        exact waterInv_guardedLoad _ _ _ (fun s => ⟨rfl, rfl, rfl⟩) ih
      | waterpro rec path st' hwf =>
        exact waterInv_loadWaterpro rec path _ hwf ih
      | txd decoded name st' =>
        exact waterInv_loadTXD decoded name _ ih
  refine ⟨hinv.2.1, hinv.2.2, ?_⟩
  intro x y
  unfold getWaterIndexAt
  intro hne
  rcases getD_mem_or_eq st.realWater (waterDataIndex x y) NO_WATER_INDEX with hm | he
  · rw [hinv.1]
    exact hinv.2.2 _ hm hne
  · exact absurd he hne

/-- C10 witness: after loading a concrete well-formed waterpro record into
the fresh registry, the stored index under the south-west corner is
non-sentinel and reads the height table in bounds. -/
theorem reachable_water_in_bounds_witness :
    getWaterIndexAt (loadWaterpro sampleWaterRec "data/waterpro.dat" initState)
        (-2048) (-2048) <
      (loadWaterpro sampleWaterRec "data/waterpro.dat" initState).waterHeights.length :=
  (reachable_water_in_bounds
      (loadWaterpro sampleWaterRec "data/waterpro.dat" initState)
      (Relation.ReflTransGen.single
        (LoadStep.waterpro sampleWaterRec "data/waterpro.dat" initState
          (by decide)))).2.2 (-2048) (-2048)
    (by norm_num [loadWaterpro, guardedLoad, markIfUnloaded, initState,
      getWaterIndexAt, waterDataIndex, waterCellCoord, clampInt,
      WATER_WORLD_SIZE, WATER_HQ_DATA_SIZE, NO_WATER_INDEX, sampleWaterRec,
      List.getD])
